import Mathlib

/-!
Verification of the MIDI traffic decoder in `src/midi/src/main.rs`
(repository mdeeds/olmusic).

The decoder is a `MidiHandler` struct holding two `u32` counters and a
history of emitted tokens; `handle_message` classifies each raw byte
sequence by a priority-ordered if/else chain and updates the clock state.
`main` connects every enumerated MIDI input port to one shared
`Arc<Mutex<MidiHandler>>`.

Bytes are modelled as `Nat` (valid values are `< 256`, the range of Rust
`u8`); the `u32` counters are modelled as `Nat`, with a separate checked
variant recording where Rust debug builds would panic on overflow or
out-of-bounds indexing.
-/

namespace Olmusic

/-- Two lowercase hex digits, as Rust format \x7b:02x\x7d renders a `u8`
value (`b < 256`); `Nat.digitChar` yields lowercase hex digit characters. -/
def hex2 (b : Nat) : String :=
  String.mk [Nat.digitChar (b / 16 % 16), Nat.digitChar (b % 16)]

/-- The `MidiHandler` struct of `main.rs`: `clock_counter` is the spec name
`pulse_count` (pulses since the last quarter-note boundary),
`delta_clock_counter` the spec name `delta_pulse_count` (pulses since the
last emitted note event), and `history` the append-only token history. -/
structure MidiHandler where
  clock_counter : Nat
  delta_clock_counter : Nat
  history : List String
deriving Repr, DecidableEq

/-- `MidiHandler::new`. -/
def MidiHandler.new : MidiHandler :=
  { clock_counter := 0, delta_clock_counter := 0, history := [] }

/-- `MidiHandler::increment_clock`: increment both counters; at 24 pulses
reset both to 0 and emit the quarter-note marker. -/
def increment_clock (h : MidiHandler) : Option String × MidiHandler :=
  let c := h.clock_counter + 1
  let d := h.delta_clock_counter + 1
  if 24 ≤ c then
    (some "Q ", { h with clock_counter := 0, delta_clock_counter := 0 })
  else
    (none, { h with clock_counter := c, delta_clock_counter := d })

/-- `MidiHandler::reset_clock`: zero both counters. -/
def reset_clock (h : MidiHandler) : MidiHandler :=
  { h with clock_counter := 0, delta_clock_counter := 0 }

/-- `MidiHandler::get_delta_time`: if `delta_clock_counter > 0`, render the
`P\x7bhex2\x7d ` prefix and zero the counter, else the empty string. -/
def get_delta_time (h : MidiHandler) : String × MidiHandler :=
  if 0 < h.delta_clock_counter then
    ("P" ++ hex2 h.delta_clock_counter ++ " ", { h with delta_clock_counter := 0 })
  else
    ("", h)

/-- The closed `EventCategory` variant of the spec; one constructor per branch of
the if/else chain of `MidiHandler::handle_message`. -/
inductive EventCategory where
  | Empty
  | SysEx
  | ControlChange
  | TimingClock
  | Start
  | End
  | OtherRealtime
  | NoteOff (note : Nat)
  | NoteOn (note : Nat) (velocity : Nat)
  | Raw (bytes : List Nat)
deriving Repr, DecidableEq

/-- The classification chain of `MidiHandler::handle_message`, guard for
guard and in source order.  `msg.getD i 0` is `message[i]`; every
branch that indexes has already checked the length, as the source does. -/
def classify (msg : List Nat) : EventCategory :=
  if msg.length = 0 then .Empty
  else if msg.getD 0 0 = 0xf0 then .SysEx
  else if msg.getD 0 0 &&& 0xf0 = 0xb0 then .ControlChange
  else if msg.length = 1 ∧ msg.getD 0 0 = 0xf8 then .TimingClock
  else if msg.length = 1 ∧ msg.getD 0 0 = 0xfa then .Start
  else if msg.length = 1 ∧ msg.getD 0 0 = 0xfc then .End
  else if msg.getD 0 0 &&& 0xf0 = 0xf0 then .OtherRealtime
  else if (msg.length = 3 ∧ msg.getD 0 0 &&& 0xf0 = 0x90 ∧ msg.getD 2 0 = 0)
          ∨ (msg.length = 3 ∧ msg.getD 0 0 &&& 0xf0 = 0x80) then
    .NoteOff (msg.getD 1 0)
  else if msg.length = 3 ∧ msg.getD 0 0 &&& 0xf0 = 0x90 then
    .NoteOn (msg.getD 1 0) (msg.getD 2 0)
  else .Raw msg

/-- The final lines of `handle_message`: an empty output returns `None`
without touching history; a nonempty output is pushed onto the history and
returned. -/
def emit (h : MidiHandler) (out : String) : Option String × MidiHandler :=
  if out = "" then (none, h)
  else (some out, { h with history := h.history ++ [out] })

/-- The raw fallback body: `output.push_str("M")`, then a 2-hex-digit dump
of each byte in order, then a trailing space. -/
def rawDump (msg : List Nat) : String :=
  (msg.foldl (fun acc b => acc ++ hex2 b) "M") ++ " "

/-- `MidiHandler::handle_message`: dispatch on the classification chain;
branch bodies follow the source, in source order.  Returns the
optional emitted token together with the updated handler. -/
def handle_message (h : MidiHandler) (msg : List Nat) : Option String × MidiHandler :=
  match classify msg with
  | .Empty => (none, h)
  | .SysEx => (none, h)
  | .ControlChange => (none, h)
  | .TimingClock =>
      let (o, h') := increment_clock h
      emit h' (o.getD "")
  | .Start => emit (reset_clock h) "Start "
  | .End => emit h "End "
  | .OtherRealtime => (none, h)
  | .NoteOff note =>
      let (p, h') := get_delta_time h
      emit h' (p ++ "O" ++ hex2 note ++ " ")
  | .NoteOn note velocity =>
      let (p, h') := get_delta_time h
      emit h' (p ++ "N" ++ hex2 note ++ " v" ++ hex2 velocity ++ " ")
  | .Raw bytes => emit h (rawDump bytes)

/-- Fold `handle_message` over a message sequence from a given state. -/
def runFrom (h : MidiHandler) (msgs : List (List Nat)) : MidiHandler :=
  msgs.foldl (fun s m => (handle_message s m).2) h

/-- Run a message sequence from the fresh handler `MidiHandler::new`. -/
def runAll (msgs : List (List Nat)) : MidiHandler :=
  runFrom MidiHandler.new msgs

/-- The tokens returned by `handle_message` for each message of a sequence,
in delivery order. -/
def collectAll : MidiHandler → List (List Nat) → List (Option String)
  | _, [] => []
  | h, m :: rest =>
      (handle_message h m).1 :: collectAll (handle_message h m).2 rest

/-! ### Connection fan-out, as `main` wires it

In `main`, the callback of every monitored input port clones the SAME
`Arc<Mutex<MidiHandler>>` and calls `handle_message` on it under the lock:
there is one shared handler, one shared clock state and one shared history
for all sources.  A delivered event is modelled as a pair of the source
index it arrived on and the raw bytes; an interleaving is a list of such
events (the mutex serializes the callbacks into some total order). -/

/-- One driver callback invocation on the shared handler (in `main`,
`handler.lock().unwrap().handle_message(message)`); the source index is
ignored by the code. -/
def stepShared (h : MidiHandler) (ev : Nat × List Nat) : MidiHandler :=
  (handle_message h ev.2).2

/-- The shared handler after an interleaved event sequence. -/
def runShared (evs : List (Nat × List Nat)) : MidiHandler :=
  evs.foldl stepShared MidiHandler.new

/-- The token returned to each callback, tagged with its source index. -/
def collectShared : MidiHandler → List (Nat × List Nat) → List (Nat × Option String)
  | _, [] => []
  | h, ev :: rest =>
      (ev.1, (handle_message h ev.2).1) :: collectShared (handle_message h ev.2).2 rest

/-- The byte-sequence stream one source feeds in, extracted from an
interleaving. -/
def sourceInput (src : Nat) (evs : List (Nat × List Nat)) : List (List Nat) :=
  (evs.filter (fun ev => ev.1 == src)).map (fun ev => ev.2)

/-- The per-source event history: the tokens produced in response to the
messages of one source, in order. -/
def sourceOutputs (src : Nat) (evs : List (Nat × List Nat)) : List (Option String) :=
  ((collectShared MidiHandler.new evs).filter (fun e => e.1 == src)).map (fun e => e.2)

/-! ### Checked execution

Rust debug builds panic on out-of-bounds slice indexing and on `u32`
overflow.  The checked variants return `none` exactly where the source
would panic: every `message[i]` is a `List.get?` fetch, performed at the
point the guard chain evaluates it, and each `+= 1` is guarded by the
`u32` range. -/

/-- Largest `u32` value. -/
def u32Max : Nat := 2 ^ 32 - 1

/-- `increment_clock` with the two `+= 1` overflow checks of a Rust debug
build. -/
def increment_clockChecked (h : MidiHandler) : Option (Option String × MidiHandler) :=
  if h.clock_counter + 1 ≤ u32Max ∧ h.delta_clock_counter + 1 ≤ u32Max then
    some (increment_clock h)
  else none

/-- `handle_message` with checked indexing: `message[0]` is fetched once
the zero-length guard has failed, `message[1]`/`message[2]` once the
three-byte guard region is entered, matching the evaluation order of the
short-circuiting guards of the source. -/
def handle_messageChecked (h : MidiHandler) (msg : List Nat) :
    Option (Option String × MidiHandler) :=
  if msg.length = 0 then some (none, h) else
  match msg.get? 0 with
  | none => none
  | some b0 =>
    if b0 = 0xf0 then some (none, h)
    else if b0 &&& 0xf0 = 0xb0 then some (none, h)
    else if msg.length = 1 ∧ b0 = 0xf8 then
      match increment_clockChecked h with
      | none => none
      | some (o, h') => some (emit h' (o.getD ""))
    else if msg.length = 1 ∧ b0 = 0xfa then some (emit (reset_clock h) "Start ")
    else if msg.length = 1 ∧ b0 = 0xfc then some (emit h "End ")
    else if b0 &&& 0xf0 = 0xf0 then some (none, h)
    else if msg.length = 3 then
      match msg.get? 1, msg.get? 2 with
      | some b1, some b2 =>
        if (b0 &&& 0xf0 = 0x90 ∧ b2 = 0) ∨ b0 &&& 0xf0 = 0x80 then
          let (p, h') := get_delta_time h
          some (emit h' (p ++ "O" ++ hex2 b1 ++ " "))
        else if b0 &&& 0xf0 = 0x90 then
          let (p, h') := get_delta_time h
          some (emit h' (p ++ "N" ++ hex2 b1 ++ " v" ++ hex2 b2 ++ " "))
        else some (emit h (rawDump msg))
      | _, _ => none
    else some (emit h (rawDump msg))

/-! ### The classification chain as an ordered rule list

Guard `i` below is condition `i` of the if/else chain of the source, verbatim;
index 9 is the `else` catch-all (always true). -/

/-- Guard `i` of the classification chain. -/
def ruleGuard : Nat → List Nat → Prop
  | 0, msg => msg.length = 0
  | 1, msg => msg.getD 0 0 = 0xf0
  | 2, msg => msg.getD 0 0 &&& 0xf0 = 0xb0
  | 3, msg => msg.length = 1 ∧ msg.getD 0 0 = 0xf8
  | 4, msg => msg.length = 1 ∧ msg.getD 0 0 = 0xfa
  | 5, msg => msg.length = 1 ∧ msg.getD 0 0 = 0xfc
  | 6, msg => msg.getD 0 0 &&& 0xf0 = 0xf0
  | 7, msg => (msg.length = 3 ∧ msg.getD 0 0 &&& 0xf0 = 0x90 ∧ msg.getD 2 0 = 0)
              ∨ (msg.length = 3 ∧ msg.getD 0 0 &&& 0xf0 = 0x80)
  | 8, msg => msg.length = 3 ∧ msg.getD 0 0 &&& 0xf0 = 0x90
  | _, _ => True

instance : ∀ (i : Nat) (msg : List Nat), Decidable (ruleGuard i msg)
  | 0, msg => inferInstanceAs (Decidable (msg.length = 0))
  | 1, msg => inferInstanceAs (Decidable (msg.getD 0 0 = 0xf0))
  | 2, msg => inferInstanceAs (Decidable (msg.getD 0 0 &&& 0xf0 = 0xb0))
  | 3, msg => inferInstanceAs (Decidable (msg.length = 1 ∧ msg.getD 0 0 = 0xf8))
  | 4, msg => inferInstanceAs (Decidable (msg.length = 1 ∧ msg.getD 0 0 = 0xfa))
  | 5, msg => inferInstanceAs (Decidable (msg.length = 1 ∧ msg.getD 0 0 = 0xfc))
  | 6, msg => inferInstanceAs (Decidable (msg.getD 0 0 &&& 0xf0 = 0xf0))
  | 7, msg => inferInstanceAs (Decidable
      ((msg.length = 3 ∧ msg.getD 0 0 &&& 0xf0 = 0x90 ∧ msg.getD 2 0 = 0)
        ∨ (msg.length = 3 ∧ msg.getD 0 0 &&& 0xf0 = 0x80)))
  | 8, msg => inferInstanceAs (Decidable (msg.length = 3 ∧ msg.getD 0 0 &&& 0xf0 = 0x90))
  | _ + 9, _ => inferInstanceAs (Decidable True)

/-- The category rule `i` assigns when it fires. -/
def ruleCat : Nat → List Nat → EventCategory
  | 0, _ => .Empty
  | 1, _ => .SysEx
  | 2, _ => .ControlChange
  | 3, _ => .TimingClock
  | 4, _ => .Start
  | 5, _ => .End
  | 6, _ => .OtherRealtime
  | 7, msg => .NoteOff (msg.getD 1 0)
  | 8, msg => .NoteOn (msg.getD 1 0) (msg.getD 2 0)
  | _, msg => .Raw msg

/-- The index of the first rule whose guard holds (the branch that the
if/else chain takes). -/
def firstRule (msg : List Nat) : Nat :=
  if msg.length = 0 then 0
  else if msg.getD 0 0 = 0xf0 then 1
  else if msg.getD 0 0 &&& 0xf0 = 0xb0 then 2
  else if msg.length = 1 ∧ msg.getD 0 0 = 0xf8 then 3
  else if msg.length = 1 ∧ msg.getD 0 0 = 0xfa then 4
  else if msg.length = 1 ∧ msg.getD 0 0 = 0xfc then 5
  else if msg.getD 0 0 &&& 0xf0 = 0xf0 then 6
  else if (msg.length = 3 ∧ msg.getD 0 0 &&& 0xf0 = 0x90 ∧ msg.getD 2 0 = 0)
          ∨ (msg.length = 3 ∧ msg.getD 0 0 &&& 0xf0 = 0x80) then 7
  else if msg.length = 3 ∧ msg.getD 0 0 &&& 0xf0 = 0x90 then 8
  else 9

/-! ### Helper lemmas -/

lemma string_append_ne_empty (p r : String) (hr : r ≠ "") : p ++ r ≠ "" := by
  obtain ⟨pd⟩ := p
  obtain ⟨rd⟩ := r
  intro he
  have hdata : pd ++ rd = [] := congrArg String.data he
  rcases List.append_eq_nil.mp hdata with ⟨-, h2⟩
  exact hr (by cases h2; rfl)

/-- One `handle_message` step preserves the counter invariant. -/
lemma inv_step (h : MidiHandler) (msg : List Nat)
    (hc : h.clock_counter ≤ 23) (hd : h.delta_clock_counter ≤ h.clock_counter) :
    (handle_message h msg).2.clock_counter ≤ 23
    ∧ (handle_message h msg).2.delta_clock_counter ≤ (handle_message h msg).2.clock_counter := by
  unfold handle_message
  cases classify msg <;>
    simp only [increment_clock, reset_clock, get_delta_time, emit] <;>
    (try split_ifs) <;> (simp_all; try omega)

/-- The counter invariant holds along any run. -/
lemma inv_runFrom (msgs : List (List Nat)) : ∀ h : MidiHandler,
    h.clock_counter ≤ 23 → h.delta_clock_counter ≤ h.clock_counter →
    (runFrom h msgs).clock_counter ≤ 23
    ∧ (runFrom h msgs).delta_clock_counter ≤ (runFrom h msgs).clock_counter := by
  induction msgs with
  | nil => intro h hc hd; exact ⟨hc, hd⟩
  | cons m t ih =>
      intro h hc hd
      have step := inv_step h m hc hd
      exact ih _ step.1 step.2

/-- The counter invariant for every reachable state. -/
lemma inv_runAll (msgs : List (List Nat)) :
    (runAll msgs).clock_counter ≤ 23
    ∧ (runAll msgs).delta_clock_counter ≤ (runAll msgs).clock_counter :=
  inv_runFrom msgs MidiHandler.new (by decide) (by decide)

/-- With both counters in the `u32` range minus one, checked execution
performs no panic and agrees with `handle_message`. -/
lemma checked_eq (h : MidiHandler) (msg : List Nat)
    (hc : h.clock_counter ≤ 23) (hd : h.delta_clock_counter ≤ 23) :
    handle_messageChecked h msg = some (handle_message h msg) := by
  have hinc : increment_clockChecked h = some (increment_clock h) := by
    unfold increment_clockChecked u32Max
    rw [if_pos]
    constructor <;> omega
  rcases msg with _ | ⟨b0, t⟩
  · rfl
  rcases t with _ | ⟨b1, t⟩
  · unfold handle_messageChecked handle_message classify
    simp only [List.length_cons, List.length_nil, List.get?_cons_zero, List.getD_cons_zero]
    norm_num
    split_ifs <;> (try rw [hinc]) <;> rfl
  rcases t with _ | ⟨b2, t⟩
  · unfold handle_messageChecked handle_message classify
    simp only [List.length_cons, List.length_nil, List.get?_cons_zero, List.getD_cons_zero]
    norm_num
    split_ifs <;> rfl
  rcases t with _ | ⟨b3, t⟩
  · unfold handle_messageChecked handle_message classify
    simp only [List.length_cons, List.length_nil, List.get?_cons_zero, List.get?_cons_succ,
      List.getD_cons_zero, List.getD_cons_succ]
    norm_num
    split_ifs <;> rfl
  · unfold handle_messageChecked handle_message classify
    simp only [List.length_cons, List.length_nil, List.get?_cons_zero, List.getD_cons_zero]
    norm_num
    split_ifs <;> (first | rfl | omega)

set_option maxHeartbeats 1000000 in
/-- `firstRule` is the first matching guard of the rule list. -/
lemma firstRule_isFirst (msg : List Nat) :
    ruleGuard (firstRule msg) msg ∧ ∀ j < firstRule msg, ¬ ruleGuard j msg := by
  unfold firstRule
  split_ifs with h0 h1 h2 h3 h4 h5 h6 h7 h8 <;>
    refine ⟨by simp only [ruleGuard]; try tauto, ?_⟩ <;>
    (intro j hj; interval_cases j <;> simp only [ruleGuard] <;> tauto)

lemma firstRule_le (msg : List Nat) : firstRule msg ≤ 9 := by
  unfold firstRule
  split_ifs <;> omega

set_option maxHeartbeats 1000000 in
/-- `classify` returns the category of the first matching rule. -/
lemma classify_firstRule (msg : List Nat) : classify msg = ruleCat (firstRule msg) msg := by
  unfold classify firstRule
  split_ifs <;> rfl

/-- First-match indices are unique. -/
lemma isFirst_unique {P : Nat → Prop} {i j : Nat}
    (hi : P i ∧ ∀ k < i, ¬P k) (hj : P j ∧ ∀ k < j, ¬P k) : i = j := by
  rcases Nat.lt_trichotomy i j with hlt | heq | hgt
  · exact absurd hi.1 (hj.2 i hlt)
  · exact heq
  · exact absurd hj.1 (hi.2 j hgt)

lemma join_cons (s : String) (l : List String) :
    String.join (s :: l) = s ++ String.join l := by
  apply String.ext
  simp [String.join_eq, String.data_append]

lemma foldl_hex_join (msg : List Nat) : ∀ acc : String,
    msg.foldl (fun a b => a ++ hex2 b) acc = acc ++ String.join (msg.map hex2) := by
  induction msg with
  | nil => intro acc; simp [String.join]
  | cons b t ih =>
      intro acc
      simp only [List.foldl_cons, List.map_cons, join_cons]
      rw [ih (acc ++ hex2 b), String.append_assoc]

/-- The raw-dump loop renders `M`, then the hex of every byte, then a
space. -/
lemma rawDump_join (msg : List Nat) :
    rawDump msg = "M" ++ String.join (msg.map hex2) ++ " " := by
  unfold rawDump
  rw [foldl_hex_join]

lemma hex2_length (b : Nat) : (hex2 b).length = 2 := rfl

lemma foldl_hex_length (msg : List Nat) : ∀ acc : String,
    (msg.foldl (fun a b => a ++ hex2 b) acc).length = acc.length + 2 * msg.length := by
  induction msg with
  | nil => intro acc; simp
  | cons b t ih =>
      intro acc
      simp only [List.foldl_cons, List.length_cons]
      rw [ih (acc ++ hex2 b), String.length_append, hex2_length]
      ring

/-- Byte count of a raw token. -/
lemma rawDump_length (msg : List Nat) : (rawDump msg).length = 2 * msg.length + 2 := by
  unfold rawDump
  rw [String.length_append, foldl_hex_length]
  simp [String.length]
  omega

/-- The shared fold ignores the source indices. -/
lemma runShared_eq_aux (evs : List (Nat × List Nat)) : ∀ h : MidiHandler,
    evs.foldl stepShared h
      = (evs.map (fun ev => ev.2)).foldl (fun s m => (handle_message s m).2) h := by
  induction evs with
  | nil => intro h; rfl
  | cons e t ih => intro h; exact ih _

/-- The collected callback outputs ignore the source indices. -/
lemma collectShared_eq_aux (evs : List (Nat × List Nat)) : ∀ h : MidiHandler,
    (collectShared h evs).map (fun e => e.2) = collectAll h (evs.map (fun ev => ev.2)) := by
  induction evs with
  | nil => intro h; rfl
  | cons e t ih =>
      intro h
      simp only [collectShared, collectAll, List.map_cons]
      rw [ih]

/-! Claim theorems -/

set_option maxRecDepth 10000

/-- Claim C1, counterexample: source 0 feeds the identical byte-sequence
stream (one note-on) in two interleavings that differ only in what source 1
sends first, yet the tokens produced for source 0 differ, because `main`
routes every source into one shared `MidiHandler`. -/
theorem C1_counterexample :
    sourceInput 0 [(0, [0x90, 0x3c, 0x64])]
      = sourceInput 0 [(1, [0xf8]), (1, [0xf8]), (1, [0xf8]), (1, [0xf8]), (1, [0xf8]),
                       (0, [0x90, 0x3c, 0x64])]
    ∧ sourceOutputs 0 [(0, [0x90, 0x3c, 0x64])]
        ≠ sourceOutputs 0 [(1, [0xf8]), (1, [0xf8]), (1, [0xf8]), (1, [0xf8]), (1, [0xf8]),
                           (0, [0x90, 0x3c, 0x64])] := by
  decide

/-- Claim C1, amended: all input connections share a single `MidiHandler`
behind one mutex, so per-source histories are not independent; instead, the
shared state and the sequence of returned tokens are fully determined by
the interleaved message sequence alone (source identity is ignored by the
code). -/
theorem C1_shared_handler (evs : List (Nat × List Nat)) :
    runShared evs = runAll (evs.map (fun ev => ev.2))
    ∧ (collectShared MidiHandler.new evs).map (fun e => e.2)
        = collectAll MidiHandler.new (evs.map (fun ev => ev.2)) :=
  ⟨runShared_eq_aux evs MidiHandler.new, collectShared_eq_aux evs MidiHandler.new⟩

/-- Claim C2: on every reachable handler state and every byte sequence,
checked execution performs no panic and agrees with `handle_message`;
exactly one classification rule is the first to apply; `classify` returns
the category of that first rule; and any message matched by no rule below
the catch-all is classified `Raw`. -/
theorem C2_total_no_panic (msgs : List (List Nat)) (msg : List Nat) :
    handle_messageChecked (runAll msgs) msg = some (handle_message (runAll msgs) msg)
    ∧ (∃! i, ruleGuard i msg ∧ ∀ j < i, ¬ ruleGuard j msg)
    ∧ classify msg = ruleCat (firstRule msg) msg
    ∧ firstRule msg ≤ 9
    ∧ ((∀ j < 9, ¬ ruleGuard j msg) → classify msg = EventCategory.Raw msg) := by
  obtain ⟨hc, hd⟩ := inv_runAll msgs
  refine ⟨checked_eq _ _ hc (le_trans hd hc), ?_, classify_firstRule msg, firstRule_le msg, ?_⟩
  · exact ⟨firstRule msg, firstRule_isFirst msg,
      fun y hy => isFirst_unique (P := fun n => ruleGuard n msg) hy (firstRule_isFirst msg)⟩
  · intro hnone
    have h9 : firstRule msg = 9 := by
      have hf := firstRule_isFirst msg
      have hle := firstRule_le msg
      by_contra hne
      exact hnone _ (by omega) hf.1
    rw [classify_firstRule msg, h9]
    rfl

/-- Claim C2, witness: the one-byte message 0x01 matches no rule below the
catch-all, is classified Raw, and checked execution of it from the fresh
handler does not panic. -/
theorem C2_witness :
    (∀ j < 9, ¬ ruleGuard j [0x01])
    ∧ classify [0x01] = EventCategory.Raw [0x01]
    ∧ handle_messageChecked MidiHandler.new [0x01]
        = some (handle_message MidiHandler.new [0x01]) :=
  ⟨by decide, (C2_total_no_panic [] [0x01]).2.2.2.2 (by decide),
   (C2_total_no_panic [] [0x01]).1⟩

/-- Claim C3: from a fresh handler, 24 timing-clock messages emit exactly
one quarter-note token and return `clock_counter` to 0; 23 emit nothing. -/
theorem C3_quarter_cycle :
    (runAll (List.replicate 24 [0xf8])).history = ["Q "]
    ∧ (runAll (List.replicate 24 [0xf8])).clock_counter = 0
    ∧ (runAll (List.replicate 23 [0xf8])).history = [] := by
  decide

/-- Claim C4: five clocks then a note-on yield the token P05 N3c v64 and an
immediately following note-on yields N3c v64 with no prefix; in general the
note-on handler emits the delta prefix exactly when `delta_clock_counter`
is positive and always resets it to 0. -/
theorem C4_delta_time :
    (runAll (List.replicate 5 [0xf8] ++ [[0x90, 0x3c, 0x64]])).history = ["P05 N3c v64 "]
    ∧ (handle_message (runAll (List.replicate 5 [0xf8] ++ [[0x90, 0x3c, 0x64]]))
        [0x90, 0x3c, 0x64]).1 = some "N3c v64 "
    ∧ ∀ h : MidiHandler,
        (handle_message h [0x90, 0x3c, 0x64]).1
          = some (if 0 < h.delta_clock_counter
                  then "P" ++ hex2 h.delta_clock_counter ++ " " ++ "N3c v64 "
                  else "N3c v64 ")
        ∧ (handle_message h [0x90, 0x3c, 0x64]).2.delta_clock_counter = 0 := by
  refine ⟨by decide, by decide, ?_⟩
  intro h
  have hstep : handle_message h [0x90, 0x3c, 0x64]
      = emit (get_delta_time h).2
          ((get_delta_time h).1 ++ "N" ++ hex2 0x3c ++ " v" ++ hex2 0x64 ++ " ") := by
    unfold handle_message
    rw [show classify [0x90, 0x3c, 0x64] = EventCategory.NoteOn 0x3c 0x64 from by decide]
  by_cases hd : 0 < h.delta_clock_counter
  · have hg : get_delta_time h
        = ("P" ++ hex2 h.delta_clock_counter ++ " ", { h with delta_clock_counter := 0 }) := by
      unfold get_delta_time
      rw [if_pos hd]
    rw [hstep, hg, if_pos hd]
    dsimp only
    unfold emit
    rw [if_neg (string_append_ne_empty _ " " (by decide))]
    refine ⟨?_, rfl⟩
    rw [show hex2 0x3c = "3c" from by decide, show hex2 0x64 = "64" from by decide]
    simp only [String.append_assoc]
    congr 3
  · have hd0 : h.delta_clock_counter = 0 := by omega
    have hg : get_delta_time h = ("", h) := by
      unfold get_delta_time
      rw [if_neg hd]
    rw [hstep, hg, if_neg hd]
    dsimp only
    unfold emit
    rw [if_neg (by decide)]
    constructor
    · show some ("" ++ "N" ++ hex2 0x3c ++ " v" ++ hex2 0x64 ++ " ") = some "N3c v64 "
      decide
    · exact hd0

/-- Claim C5: after 10 clocks (no emission yet) a Start message emits the
start token and resets `clock_counter` to 0, after which 24 further clocks
(not 14) are needed for the next quarter-note token; moreover Start resets
both counters unconditionally, from any state. -/
theorem C5_start_resets :
    (runAll (List.replicate 10 [0xf8])).history = []
    ∧ (handle_message (runAll (List.replicate 10 [0xf8])) [0xfa]).1 = some "Start "
    ∧ (handle_message (runAll (List.replicate 10 [0xf8])) [0xfa]).2.clock_counter = 0
    ∧ (runAll (List.replicate 10 [0xf8] ++ [[0xfa]] ++ List.replicate 23 [0xf8])).history
        = ["Start "]
    ∧ (runAll (List.replicate 10 [0xf8] ++ [[0xfa]] ++ List.replicate 24 [0xf8])).history
        = ["Start ", "Q "]
    ∧ ∀ h : MidiHandler,
        (handle_message h [0xfa]).1 = some "Start "
        ∧ (handle_message h [0xfa]).2.clock_counter = 0
        ∧ (handle_message h [0xfa]).2.delta_clock_counter = 0 := by
  refine ⟨by decide, by decide, by decide, by decide, by decide, ?_⟩
  intro h
  have hcat : classify [0xfa] = EventCategory.Start := by decide
  unfold handle_message
  rw [hcat]
  unfold emit reset_clock
  rw [if_neg (by decide)]
  exact ⟨rfl, rfl, rfl⟩

/-- Claim C6: every terminal-category message (empty, SysEx lead byte 0xF0,
control-change status nibble 0xB0, or any remaining system byte classified
OtherRealtime) returns no token and leaves the handler, both counters and
the history included, exactly as it was. -/
theorem C6_terminal_frame (h : MidiHandler) (msg : List Nat)
    (hter : msg = [] ∨ msg.getD 0 0 = 0xf0 ∨ msg.getD 0 0 &&& 0xf0 = 0xb0
            ∨ classify msg = EventCategory.OtherRealtime) :
    handle_message h msg = (none, h) := by
  rcases hter with hc | hc | hc | hc
  · subst hc; rfl
  · rcases msg with _ | ⟨b0, t⟩
    · simp [List.getD] at hc
    · simp only [List.getD_cons_zero] at hc
      have hcat : classify (b0 :: t) = EventCategory.SysEx := by
        unfold classify
        rw [if_neg (by simp), if_pos (by simpa using hc)]
      unfold handle_message
      rw [hcat]
  · rcases msg with _ | ⟨b0, t⟩
    · simp [List.getD] at hc
    · simp only [List.getD_cons_zero] at hc
      have hb0 : ¬ (b0 = 0xf0) := by
        intro he
        rw [he] at hc
        exact absurd hc (by decide)
      have hcat : classify (b0 :: t) = EventCategory.ControlChange := by
        unfold classify
        rw [if_neg (by simp), if_neg (by simpa using hb0), if_pos (by simpa using hc)]
      unfold handle_message
      rw [hcat]
  · unfold handle_message
    rw [hc]

/-- Claim C6, witness: the four terminal shapes named by the claim, applied
to the fresh handler, all leave it untouched and return no token. -/
theorem C6_witness :
    (classify [0xfe] = EventCategory.OtherRealtime)
    ∧ handle_message MidiHandler.new [0xfe] = (none, MidiHandler.new)
    ∧ handle_message MidiHandler.new [0xb3, 0x40, 0x7f] = (none, MidiHandler.new)
    ∧ handle_message MidiHandler.new [0xf0, 0x01] = (none, MidiHandler.new)
    ∧ handle_message MidiHandler.new [] = (none, MidiHandler.new) :=
  ⟨by decide,
   C6_terminal_frame MidiHandler.new [0xfe] (Or.inr (Or.inr (Or.inr (by decide)))),
   C6_terminal_frame MidiHandler.new [0xb3, 0x40, 0x7f] (Or.inr (Or.inr (Or.inl (by decide)))),
   C6_terminal_frame MidiHandler.new [0xf0, 0x01] (Or.inr (Or.inl (by decide))),
   C6_terminal_frame MidiHandler.new [] (Or.inl rfl)⟩

/-- Claim C7: note-on with velocity 0 and note-off status alias to the same
NoteOff classification for note 0x3C, and from any state with a zero delta
counter both emit the identical token O3c followed by a space. -/
theorem C7_note_off_alias :
    classify [0x80, 0x3c, 0x00] = EventCategory.NoteOff 0x3c
    ∧ classify [0x90, 0x3c, 0x00] = EventCategory.NoteOff 0x3c
    ∧ ∀ h : MidiHandler, h.delta_clock_counter = 0 →
        (handle_message h [0x80, 0x3c, 0x00]).1 = some "O3c "
        ∧ (handle_message h [0x90, 0x3c, 0x00]).1 = some "O3c " := by
  refine ⟨by decide, by decide, ?_⟩
  intro h hd0
  have hg : get_delta_time h = ("", h) := by
    unfold get_delta_time
    rw [if_neg (by omega)]
  constructor
  · have hstep : handle_message h [0x80, 0x3c, 0x00]
        = emit (get_delta_time h).2 ((get_delta_time h).1 ++ "O" ++ hex2 0x3c ++ " ") := by
      unfold handle_message
      rw [show classify [0x80, 0x3c, 0x00] = EventCategory.NoteOff 0x3c from by decide]
    rw [hstep, hg]
    dsimp only
    unfold emit
    rw [if_neg (by decide)]
    show some ("" ++ "O" ++ hex2 0x3c ++ " ") = some "O3c "
    decide
  · have hstep : handle_message h [0x90, 0x3c, 0x00]
        = emit (get_delta_time h).2 ((get_delta_time h).1 ++ "O" ++ hex2 0x3c ++ " ") := by
      unfold handle_message
      rw [show classify [0x90, 0x3c, 0x00] = EventCategory.NoteOff 0x3c from by decide]
    rw [hstep, hg]
    dsimp only
    unfold emit
    rw [if_neg (by decide)]
    show some ("" ++ "O" ++ hex2 0x3c ++ " ") = some "O3c "
    decide

/-- Claim C7, witness: the fresh handler has a zero delta counter, and both
aliased messages produce the token O3c followed by a space. -/
theorem C7_witness :
    MidiHandler.new.delta_clock_counter = 0
    ∧ (handle_message MidiHandler.new [0x80, 0x3c, 0x00]).1 = some "O3c "
    ∧ (handle_message MidiHandler.new [0x90, 0x3c, 0x00]).1 = some "O3c " :=
  ⟨rfl, (C7_note_off_alias.2.2 MidiHandler.new rfl).1,
   (C7_note_off_alias.2.2 MidiHandler.new rfl).2⟩

/-- Claim C8: every message classified Raw emits the letter M, the
two-digit lowercase hex of every byte in order, and a trailing space, so
the token length is twice the message length plus two. -/
theorem C8_raw_roundtrip (msg : List Nat) (h : MidiHandler)
    (hraw : classify msg = EventCategory.Raw msg) :
    (handle_message h msg).1 = some ("M" ++ String.join (msg.map hex2) ++ " ")
    ∧ ("M" ++ String.join (msg.map hex2) ++ " ").length = 2 * msg.length + 2 := by
  constructor
  · have hstep : handle_message h msg = emit h (rawDump msg) := by
      unfold handle_message
      rw [hraw]
    rw [hstep]
    unfold emit
    rw [if_neg (by
      rw [rawDump_join]
      exact string_append_ne_empty _ " " (by decide))]
    dsimp only
    rw [rawDump_join]
  · rw [← rawDump_join, rawDump_length]

/-- Claim C8, witness: the four-byte message of the claim is Raw and its
token is Ma1020304 followed by a space, of length 10 = 2 * 4 + 2. -/
theorem C8_witness :
    classify [0xa1, 0x02, 0x03, 0x04] = EventCategory.Raw [0xa1, 0x02, 0x03, 0x04]
    ∧ (handle_message MidiHandler.new [0xa1, 0x02, 0x03, 0x04]).1 = some "Ma1020304 "
    ∧ 2 * [0xa1, 0x02, 0x03, 0x04].length + 2 = 10 := by
  refine ⟨by decide, ?_, by decide⟩
  rw [(C8_raw_roundtrip [0xa1, 0x02, 0x03, 0x04] MidiHandler.new (by decide)).1]
  decide

/-- Claim C9, counterexample: handling the three-byte message F1 02 7F
emits no token at all, in particular not the raw token Mf1027f claimed by
the spec table. -/
theorem C9_counterexample :
    (handle_message MidiHandler.new [0xf1, 0x02, 0x7f]).1 ≠ some "Mf1027f "
    ∧ (handle_message MidiHandler.new [0xf1, 0x02, 0x7f]).1 = none := by
  decide

/-- Claim C9, amended: the three-byte message F1 02 7F has lead byte with
status nibble 0xF0 and so is classified OtherRealtime, a terminal
category: handling it emits no token and changes nothing. -/
theorem C9_other_realtime :
    classify [0xf1, 0x02, 0x7f] = EventCategory.OtherRealtime
    ∧ ∀ h : MidiHandler, handle_message h [0xf1, 0x02, 0x7f] = (none, h) := by
  refine ⟨by decide, ?_⟩
  intro h
  unfold handle_message
  rw [show classify [0xf1, 0x02, 0x7f] = EventCategory.OtherRealtime from by decide]

/-- Claim C10: on every reachable state, `clock_counter` stays at most 23
and `delta_clock_counter` stays at most `clock_counter`; hence a positive
delta counter lies in 1..23, fits two exact hex digits with no widening or
truncation, and the emitted prefix is P, the two digits, and a space. -/
theorem C10_invariant (msgs : List (List Nat)) :
    (runAll msgs).clock_counter ≤ 23
    ∧ (runAll msgs).delta_clock_counter ≤ (runAll msgs).clock_counter
    ∧ (0 < (runAll msgs).delta_clock_counter →
        1 ≤ (runAll msgs).delta_clock_counter
        ∧ (runAll msgs).delta_clock_counter ≤ 23
        ∧ (runAll msgs).delta_clock_counter < 256
        ∧ (hex2 (runAll msgs).delta_clock_counter).length = 2
        ∧ (get_delta_time (runAll msgs)).1
            = "P" ++ hex2 (runAll msgs).delta_clock_counter ++ " ") := by
  obtain ⟨h1, h2⟩ := inv_runAll msgs
  refine ⟨h1, h2, fun hpos => ⟨hpos, by omega, by omega, hex2_length _, ?_⟩⟩
  unfold get_delta_time
  rw [if_pos hpos]

/-- Claim C10, witness: after five clocks the delta counter is 5, within
bounds, and the prefix renders as P05 followed by a space. -/
theorem C10_witness :
    0 < (runAll (List.replicate 5 [0xf8])).delta_clock_counter
    ∧ (runAll (List.replicate 5 [0xf8])).delta_clock_counter ≤ 23
    ∧ (get_delta_time (runAll (List.replicate 5 [0xf8]))).1 = "P05 " := by
  have hc := (C10_invariant (List.replicate 5 [0xf8])).2.2 (by decide)
  exact ⟨by decide, hc.2.1, by rw [hc.2.2.2.2]; decide⟩

end Olmusic
